import Mathlib

/-!
Shallow embedding of the after8 CHIP-8 interpreter
(src/src/chip8/cpu.rs and src/src/chip8/screen.rs).

Machine bytes are modelled as `Nat` with explicit `% 2^w` where the Rust
code performs wrapping arithmetic; array indexing that can panic in Rust
(RAM, the call stack) is modelled with `Except Fault`.  Maps (RAM, the
register file, the keypad, the pixel grid) are total functions `Nat → _`
updated with `Function.update`; the callers only ever touch the in-range
indices the Rust arrays have.
-/

namespace After8

/-- RAM_SIZE from cpu.rs (note: the source says 4048, not 4096). -/
def RAM_SIZE : Nat := 4048

/-- START_ADDR from cpu.rs. -/
def START_ADDR : Nat := 0x200

/-- NUM_REGS from cpu.rs. -/
def NUM_REGS : Nat := 16

/-- STACK_SIZE from cpu.rs. -/
def STACK_SIZE : Nat := 16

/-- NUM_KEYS from cpu.rs. -/
def NUM_KEYS : Nat := 16

/-- TICKS_PER_FRAME from cpu.rs. -/
def TICKS_PER_FRAME : Nat := 10

/-- Modelled from the spec: the glyph table constant
`FontSet.FONT_SPRITE_SIZE` lives in src/src/chip8/font_set.rs, which is
not under src/; the spec says each hexadecimal glyph occupies 5 bytes. -/
def FONT_SPRITE_SIZE : Nat := 5

/-- The ways the Rust process can die while interpreting: the
`panic!`/`unreachable!` arms of `dispatch` (an undecodable instruction),
the `unimplemented!` body of `oc_fx08`, a slice/array index out of
bounds, and call-stack over/underflow in `Stack::push`/`Stack::pop`. -/
inductive Fault where
  | unsupportedOpcode
  | notImplemented
  | outOfBounds
  | stackOverflow
  | stackUnderflow
deriving DecidableEq, Repr

/-- The call stack from cpu.rs: a fixed array of 16 slots plus a raw
stack pointer. -/
structure Stack where
  data : Nat → Nat
  sp : Nat

/-- `Stack::push`: writes `data[sp]` then increments `sp`; the write
panics when `sp` is already at capacity. -/
def Stack.push (st : Stack) (val : Nat) : Except Fault Stack :=
  if st.sp < STACK_SIZE then
    .ok ⟨Function.update st.data st.sp val, st.sp + 1⟩
  else .error .stackOverflow

/-- `Stack::pop`: decrements `sp` then reads `data[sp]`; at `sp = 0` the
decrement underflows and the read panics. -/
def Stack.pop (st : Stack) : Except Fault (Nat × Stack) :=
  if st.sp = 0 then .error .stackUnderflow
  else .ok (st.data (st.sp - 1), ⟨st.data, st.sp - 1⟩)

/-- SCREEN_WIDTH from screen.rs. -/
def SCREEN_WIDTH : Nat := 64

/-- SCREEN_HEIGHT from screen.rs. -/
def SCREEN_HEIGHT : Nat := 32

/-- The display surface from screen.rs: a row-major monochrome pixel
grid (the renderer is an external sink and carries no state). -/
structure Screen where
  pixel : Nat → Bool

/-- `Screen::clear`. -/
def Screen.clear (_scr : Screen) : Screen :=
  ⟨fun _ => false⟩

/-- One iteration of the inner bit loop of `Screen::draw_sprite`:
compute the sprite bit, and if it is on, record
`pixel_changed |= pixel[idx] != px` and then `pixel[idx] ^= px`. -/
def drawBit (p : Nat → Bool) (ch : Bool) (sprite_byte pos_x y bit : Nat) :
    (Nat → Bool) × Bool :=
  let px : Bool := (sprite_byte &&& (0b10000000 >>> bit)) != 0
  if px then
    let x := (pos_x + bit) % SCREEN_WIDTH
    let screen_idx := x + y * SCREEN_WIDTH
    (Function.update p screen_idx (xor (p screen_idx) px),
     ch || (p screen_idx != px))
  else (p, ch)

/-- The inner loop of `Screen::draw_sprite` over the 8 bits of one
sprite byte. -/
def drawRow (p : Nat → Bool) (ch : Bool) (sprite_byte pos_x y : Nat) :
    (Nat → Bool) × Bool :=
  (List.range 8).foldl (fun pc bit => drawBit pc.1 pc.2 sprite_byte pos_x y bit)
    (p, ch)

/-- The outer loop of `Screen::draw_sprite` over the sprite bytes,
carrying the row offset `i`. -/
def drawRows (p : Nat → Bool) (ch : Bool) (sprite : List Nat)
    (pos_x pos_y i : Nat) : (Nat → Bool) × Bool :=
  match sprite with
  | [] => (p, ch)
  | b :: rest =>
      let y := (pos_y + i) % SCREEN_HEIGHT
      let pc := drawRow p ch b pos_x y
      drawRows pc.1 pc.2 rest pos_x pos_y (i + 1)

/-- `Screen::draw_sprite`: XOR the sprite into the grid and return the
`pixel_changed` flag accumulated by the loops. -/
def Screen.draw_sprite (scr : Screen) (sprite : List Nat) (pos_x pos_y : Nat) :
    Screen × Bool :=
  let pc := drawRows scr.pixel false sprite pos_x pos_y 0
  (⟨pc.1⟩, pc.2)

/-- `Screen::render` only hands the grid to the external sink; it does
not mutate the surface. -/
def Screen.render (scr : Screen) : Screen := scr

/-- The interpreter state from cpu.rs.  `rand`/`randPos` model the
external RNG stream consumed by `oc_cxnn` (`rand::random::<u8>()`): the
stream of bytes it will return, and how many have been consumed. -/
structure CPU where
  v_reg : Nat → Nat
  ram : Nat → Nat
  pc : Nat
  i_reg : Nat
  dt : Nat
  st : Nat
  keys : Nat → Bool
  stack : Stack
  screen : Screen
  rand : Nat → Nat
  randPos : Nat

/-- A read of `self.ram[addr]`: Rust panics when the index is out of
bounds of the `RAM_SIZE` array. -/
def readRam (s : CPU) (addr : Nat) : Except Fault Nat :=
  if addr < RAM_SIZE then .ok (s.ram addr) else .error .outOfBounds

/-- A write to `self.ram[addr]`, with the same bound. -/
def writeRam (s : CPU) (addr val : Nat) : Except Fault CPU :=
  if addr < RAM_SIZE then
    .ok {s with ram := Function.update s.ram addr val}
  else .error .outOfBounds

/-- `oc_0000`: the no-op (it only logs). -/
def oc_0000 (s : CPU) : CPU := s

/-- `oc_00e0`: clear the screen. -/
def oc_00e0 (s : CPU) : CPU :=
  {s with screen := s.screen.clear}

/-- `oc_00ee`: pop the call stack into the program counter. -/
def oc_00ee (s : CPU) : Except Fault CPU :=
  (s.stack.pop).map fun r => {s with pc := r.1, stack := r.2}

/-- `oc_1nnn`: jump. -/
def oc_1nnn (s : CPU) (nnn : Nat) : CPU :=
  {s with pc := nnn}

/-- `oc_2nnn`: push the (already advanced) program counter, then jump. -/
def oc_2nnn (s : CPU) (nnn : Nat) : Except Fault CPU :=
  (s.stack.push s.pc).map fun st => {s with stack := st, pc := nnn}

/-- `oc_3xnn`: skip if `VX == NN` (the `u16` immediate is truncated to
`u8` first). -/
def oc_3xnn (s : CPU) (x nn : Nat) : CPU :=
  let nn := nn % 256
  if s.v_reg x = nn then {s with pc := s.pc + 2} else s

/-- `oc_4xnn`: skip if `VX != NN`. -/
def oc_4xnn (s : CPU) (x nn : Nat) : CPU :=
  let nn := nn % 256
  if s.v_reg x ≠ nn then {s with pc := s.pc + 2} else s

/-- `oc_5xy0`: skip if `VX == VY`. -/
def oc_5xy0 (s : CPU) (x y : Nat) : CPU :=
  if s.v_reg x = s.v_reg y then {s with pc := s.pc + 2} else s

/-- `oc_6xnn`: `VX := NN`. -/
def oc_6xnn (s : CPU) (x nn : Nat) : CPU :=
  let nn := nn % 256
  {s with v_reg := Function.update s.v_reg x nn}

/-- `oc_7xnn`: `VX := VX.wrapping_add(NN)` (no flag write). -/
def oc_7xnn (s : CPU) (x nn : Nat) : CPU :=
  let nn := nn % 256
  {s with v_reg := Function.update s.v_reg x ((s.v_reg x + nn) % 256)}

/-- `oc_8xy0`: `VX := VY`. -/
def oc_8xy0 (s : CPU) (x y : Nat) : CPU :=
  {s with v_reg := Function.update s.v_reg x (s.v_reg y)}

/-- `oc_8xy1`: `VX := VX | VY`. -/
def oc_8xy1 (s : CPU) (x y : Nat) : CPU :=
  {s with v_reg := Function.update s.v_reg x (s.v_reg x ||| s.v_reg y)}

/-- `oc_8xy2`: `VX := VX & VY`. -/
def oc_8xy2 (s : CPU) (x y : Nat) : CPU :=
  {s with v_reg := Function.update s.v_reg x (s.v_reg x &&& s.v_reg y)}

/-- `oc_8xy3`: `VX := VX ^ VY`. -/
def oc_8xy3 (s : CPU) (x y : Nat) : CPU :=
  {s with v_reg := Function.update s.v_reg x (s.v_reg x ^^^ s.v_reg y)}

/-- `oc_8xy4`: `overflowing_add` on bytes — `VX := sum` and then
`VF := carry`, in that order. -/
def oc_8xy4 (s : CPU) (x y : Nat) : CPU :=
  let vx := s.v_reg x
  let vy := s.v_reg y
  let sum := (vx + vy) % 256
  let vf := if 255 < vx + vy then 1 else 0
  {s with v_reg := Function.update (Function.update s.v_reg x sum) 0xF vf}

/-- `oc_8xy5`: `overflowing_sub` — `VX := VX - VY` (wrapping on bytes)
and then `VF := if borrow then 0 else 1`, in that order. -/
def oc_8xy5 (s : CPU) (x y : Nat) : CPU :=
  let vx := s.v_reg x
  let vy := s.v_reg y
  let sub := (256 + vx - vy) % 256
  let vf := if vx < vy then 0 else 1
  {s with v_reg := Function.update (Function.update s.v_reg x sub) 0xF vf}

/-- `oc_8xy6`: `VX := VY >> 1` and then `VF := VY & 1`, in that order;
`VY` itself is unmodified. -/
def oc_8xy6 (s : CPU) (x y : Nat) : CPU :=
  let vy := s.v_reg y
  let lsb := vy &&& 1
  {s with v_reg := Function.update (Function.update s.v_reg x (vy >>> 1)) 0xF lsb}

/-- `oc_8xy7`: `VX := VY - VX` (wrapping) and then the borrow flag. -/
def oc_8xy7 (s : CPU) (x y : Nat) : CPU :=
  let vx := s.v_reg x
  let vy := s.v_reg y
  let sub := (256 + vy - vx) % 256
  let vf := if vy < vx then 0 else 1
  {s with v_reg := Function.update (Function.update s.v_reg x sub) 0xF vf}

/-- `oc_8xye`: `VX := VY << 1` (byte-truncating) and then
`VF := (VY >> 7) & 1`, in that order. -/
def oc_8xye (s : CPU) (x y : Nat) : CPU :=
  let vy := s.v_reg y
  let msb := (vy >>> 7) &&& 1
  {s with v_reg := Function.update (Function.update s.v_reg x ((vy <<< 1) % 256)) 0xF msb}

/-- `oc_9xy0`: skip if `VX != VY`. -/
def oc_9xy0 (s : CPU) (x y : Nat) : CPU :=
  if s.v_reg x ≠ s.v_reg y then {s with pc := s.pc + 2} else s

/-- `oc_annn`: `I := NNN`. -/
def oc_annn (s : CPU) (nnn : Nat) : CPU :=
  {s with i_reg := nnn}

/-- `oc_bnnn`: jump to `NNN + V0`. -/
def oc_bnnn (s : CPU) (nnn : Nat) : CPU :=
  {s with pc := nnn + s.v_reg 0}

/-- `oc_cxnn`: `VX := random_byte & NN`, consuming the next byte of the
external RNG stream. -/
def oc_cxnn (s : CPU) (x nn : Nat) : CPU :=
  let nn := nn % 256
  let rng := s.rand s.randPos % 256
  {s with v_reg := Function.update s.v_reg x (rng &&& nn),
          randPos := s.randPos + 1}

/-- `oc_dxyn`: read `n` sprite bytes from RAM at `I` (the slice panics
when it runs past the array), draw them at `(VX, VY)`, and write the
returned collision flag into `VF` as 1/0. -/
def oc_dxyn (s : CPU) (x y n : Nat) : Except Fault CPU :=
  let pos_x := s.v_reg x
  let pos_y := s.v_reg y
  let sprite_start := s.i_reg
  if sprite_start + n ≤ RAM_SIZE then
    let sprite_bytes := (List.range n).map fun k => s.ram (sprite_start + k)
    let r := s.screen.draw_sprite sprite_bytes pos_x pos_y
    .ok {s with screen := r.1,
                v_reg := Function.update s.v_reg 0xF (if r.2 then 1 else 0)}
  else .error .outOfBounds

/-- `oc_ex9e`: skip if the key indexed by `VX` is pressed (the `keys`
array access panics when `VX` is 16 or more). -/
def oc_ex9e (s : CPU) (x : Nat) : Except Fault CPU :=
  if s.v_reg x < NUM_KEYS then
    .ok (if s.keys (s.v_reg x) then {s with pc := s.pc + 2} else s)
  else .error .outOfBounds

/-- `oc_exa1`: skip if the key indexed by `VX` is not pressed. -/
def oc_exa1 (s : CPU) (x : Nat) : Except Fault CPU :=
  if s.v_reg x < NUM_KEYS then
    .ok (if s.keys (s.v_reg x) then s else {s with pc := s.pc + 2})
  else .error .outOfBounds

/-- `oc_fx07`: `VX := delay timer`. -/
def oc_fx07 (s : CPU) (x : Nat) : CPU :=
  {s with v_reg := Function.update s.v_reg x s.dt}

/-- `oc_fx08`: wait-for-keypress — `unimplemented!` in the source. -/
def oc_fx08 (_s : CPU) (_x : Nat) : Except Fault CPU :=
  .error .notImplemented

/-- `oc_fx15`: `delay timer := VX`. -/
def oc_fx15 (s : CPU) (x : Nat) : CPU :=
  {s with dt := s.v_reg x}

/-- `oc_fx18`: `sound timer := VX`. -/
def oc_fx18 (s : CPU) (x : Nat) : CPU :=
  {s with st := s.v_reg x}

/-- `oc_fx1e`: `I := I + VX` in 16-bit arithmetic. -/
def oc_fx1e (s : CPU) (x : Nat) : CPU :=
  {s with i_reg := (s.i_reg + s.v_reg x) % 65536}

/-- `oc_fx29`: `I := VX * FONT_SPRITE_SIZE` in 16-bit arithmetic — the
full register byte is multiplied, with no low-nibble mask. -/
def oc_fx29 (s : CPU) (x : Nat) : CPU :=
  {s with i_reg := (s.v_reg x * FONT_SPRITE_SIZE) % 65536}

/-- `oc_fx33`: store the BCD digits of `VX` at `I`, `I+1`, `I+2`. -/
def oc_fx33 (s : CPU) (x : Nat) : Except Fault CPU :=
  let vx := s.v_reg x
  let hundreds := vx / 100
  let rem := vx - hundreds * 100
  let tens := rem / 10
  let ones := rem - tens * 10
  (writeRam s s.i_reg hundreds).bind fun s1 =>
  (writeRam s1 ((s.i_reg + 1) % 65536) tens).bind fun s2 =>
  writeRam s2 ((s.i_reg + 2) % 65536) ones

/-- The ascending loop of `oc_fx55`: after `dumpRegs s n`, registers
`0..n-1` have been stored at `I..I+n-1`. -/
def dumpRegs (s : CPU) : Nat → Except Fault CPU
  | 0 => .ok s
  | n + 1 => (dumpRegs s n).bind fun c =>
      writeRam c ((c.i_reg + n) % 65536) (c.v_reg n)

/-- `oc_fx55`: store `V0..=VX` at `I..`, then `I += X + 1` (the `X + 1`
is computed in `u8` first, then widened to `u16`). -/
def oc_fx55 (s : CPU) (x : Nat) : Except Fault CPU :=
  (dumpRegs s (x + 1)).map fun c =>
    {c with i_reg := (c.i_reg + (x + 1) % 256) % 65536}

/-- The ascending loop of `oc_fx65`. -/
def loadRegs (s : CPU) : Nat → Except Fault CPU
  | 0 => .ok s
  | n + 1 => (loadRegs s n).bind fun c =>
      (readRam c ((c.i_reg + n) % 65536)).map fun val =>
        {c with v_reg := Function.update c.v_reg n val}

/-- `oc_fx65`: load `V0..=VX` from `I..`, then `I += X + 1`. -/
def oc_fx65 (s : CPU) (x : Nat) : Except Fault CPU :=
  (loadRegs s (x + 1)).map fun c =>
    {c with i_reg := (c.i_reg + (x + 1) % 256) % 65536}

/-- The decoded form of an instruction word: which `oc_*` handler
`CPU::dispatch` selects, with its operands. -/
inductive Op where
  | op0000
  | op00e0
  | op00ee
  | op1nnn (nnn : Nat)
  | op2nnn (nnn : Nat)
  | op3xnn (x nn : Nat)
  | op4xnn (x nn : Nat)
  | op5xy0 (x y : Nat)
  | op6xnn (x nn : Nat)
  | op7xnn (x nn : Nat)
  | op8xy0 (x y : Nat)
  | op8xy1 (x y : Nat)
  | op8xy2 (x y : Nat)
  | op8xy3 (x y : Nat)
  | op8xy4 (x y : Nat)
  | op8xy5 (x y : Nat)
  | op8xy6 (x y : Nat)
  | op8xy7 (x y : Nat)
  | op8xye (x y : Nat)
  | op9xy0 (x y : Nat)
  | opAnnn (nnn : Nat)
  | opBnnn (nnn : Nat)
  | opCxnn (x nn : Nat)
  | opDxyn (x y n : Nat)
  | opEx9e (x : Nat)
  | opExa1 (x : Nat)
  | opFx07 (x : Nat)
  | opFx08 (x : Nat)
  | opFx15 (x : Nat)
  | opFx18 (x : Nat)
  | opFx1e (x : Nat)
  | opFx29 (x : Nat)
  | opFx33 (x : Nat)
  | opFx55 (x : Nat)
  | opFx65 (x : Nat)
deriving DecidableEq, Repr

/-- The nibble match of `CPU::dispatch`, split out as a pure decoder:
`none` stands for the `unreachable!` arms and the final
`panic!("unsupported opcode ...")` arm, all of which kill the process.
The nibble and operand extraction is copied from the source. -/
def decode (high_byte low_byte : Nat) : Option Op :=
  let b3 := (high_byte &&& 0xF0) >>> 4
  let b2 := high_byte &&& 0x0F
  let b1 := (low_byte &&& 0xF0) >>> 4
  let b0 := low_byte &&& 0x0F
  let nn := low_byte &&& 0xFF
  let nnn := ((high_byte <<< 8) ||| low_byte) &&& 0xFFF
  match b3 with
  | 0 =>
    match b2, b1, b0 with
    | 0, 0xE, 0xE => some .op00ee
    | 0, 0xE, 0 => some .op00e0
    | 0, 0, 0 => some .op0000
    | _, _, _ => none
  | 1 => some (.op1nnn nnn)
  | 2 => some (.op2nnn nnn)
  | 3 => some (.op3xnn b2 nn)
  | 4 => some (.op4xnn b2 nn)
  | 5 => if b0 = 0 then some (.op5xy0 b2 b1) else none
  | 6 => some (.op6xnn b2 nn)
  | 7 => some (.op7xnn b2 nn)
  | 8 =>
    match b0 with
    | 0 => some (.op8xy0 b2 b1)
    | 1 => some (.op8xy1 b2 b1)
    | 2 => some (.op8xy2 b2 b1)
    | 3 => some (.op8xy3 b2 b1)
    | 4 => some (.op8xy4 b2 b1)
    | 5 => some (.op8xy5 b2 b1)
    | 6 => some (.op8xy6 b2 b1)
    | 7 => some (.op8xy7 b2 b1)
    | 0xE => some (.op8xye b2 b1)
    | _ => none
  | 9 => if b0 = 0 then some (.op9xy0 b2 b1) else none
  | 0xA => some (.opAnnn nnn)
  | 0xB => some (.opBnnn nnn)
  | 0xC => some (.opCxnn b2 nn)
  | 0xD => some (.opDxyn b2 b1 b0)
  | 0xE =>
    match b1, b0 with
    | 9, 0xE => some (.opEx9e b2)
    | 0xA, 1 => some (.opExa1 b2)
    | _, _ => none
  | 0xF =>
    match b1, b0 with
    | 0, 7 => some (.opFx07 b2)
    | 0, 8 => some (.opFx08 b2)
    | 1, 5 => some (.opFx15 b2)
    | 1, 8 => some (.opFx18 b2)
    | 1, 0xE => some (.opFx1e b2)
    | 2, 9 => some (.opFx29 b2)
    | 3, 3 => some (.opFx33 b2)
    | 5, 5 => some (.opFx55 b2)
    | 6, 5 => some (.opFx65 b2)
    | _, _ => none
  | _ => none

/-- Run the handler an instruction decoded into. -/
def exec (s : CPU) : Op → Except Fault CPU
  | .op0000 => .ok (oc_0000 s)
  | .op00e0 => .ok (oc_00e0 s)
  | .op00ee => oc_00ee s
  | .op1nnn nnn => .ok (oc_1nnn s nnn)
  | .op2nnn nnn => oc_2nnn s nnn
  | .op3xnn x nn => .ok (oc_3xnn s x nn)
  | .op4xnn x nn => .ok (oc_4xnn s x nn)
  | .op5xy0 x y => .ok (oc_5xy0 s x y)
  | .op6xnn x nn => .ok (oc_6xnn s x nn)
  | .op7xnn x nn => .ok (oc_7xnn s x nn)
  | .op8xy0 x y => .ok (oc_8xy0 s x y)
  | .op8xy1 x y => .ok (oc_8xy1 s x y)
  | .op8xy2 x y => .ok (oc_8xy2 s x y)
  | .op8xy3 x y => .ok (oc_8xy3 s x y)
  | .op8xy4 x y => .ok (oc_8xy4 s x y)
  | .op8xy5 x y => .ok (oc_8xy5 s x y)
  | .op8xy6 x y => .ok (oc_8xy6 s x y)
  | .op8xy7 x y => .ok (oc_8xy7 s x y)
  | .op8xye x y => .ok (oc_8xye s x y)
  | .op9xy0 x y => .ok (oc_9xy0 s x y)
  | .opAnnn nnn => .ok (oc_annn s nnn)
  | .opBnnn nnn => .ok (oc_bnnn s nnn)
  | .opCxnn x nn => .ok (oc_cxnn s x nn)
  | .opDxyn x y n => oc_dxyn s x y n
  | .opEx9e x => oc_ex9e s x
  | .opExa1 x => oc_exa1 s x
  | .opFx07 x => .ok (oc_fx07 s x)
  | .opFx08 x => oc_fx08 s x
  | .opFx15 x => .ok (oc_fx15 s x)
  | .opFx18 x => .ok (oc_fx18 s x)
  | .opFx1e x => .ok (oc_fx1e s x)
  | .opFx29 x => .ok (oc_fx29 s x)
  | .opFx33 x => oc_fx33 s x
  | .opFx55 x => oc_fx55 s x
  | .opFx65 x => oc_fx65 s x

/-- `CPU::dispatch`: decode the two bytes and run the handler; an
undecodable pattern is the fatal `unsupported opcode` panic. -/
def dispatch (s : CPU) (high_byte low_byte : Nat) : Except Fault CPU :=
  match decode high_byte low_byte with
  | some op => exec s op
  | none => .error .unsupportedOpcode

/-- `CPU::tick`: fetch the big-endian instruction word at `pc`, advance
`pc` by 2, then dispatch. -/
def tick (s : CPU) : Except Fault CPU :=
  (readRam s s.pc).bind fun high_byte =>
  (readRam s (s.pc + 1)).bind fun low_byte =>
  dispatch {s with pc := s.pc + 2} high_byte low_byte

/-- `CPU::tick_timers`: decrement each timer when it is positive (the
sound timer additionally emits a beep when it hits 1, a pure side
effect). -/
def tick_timers (s : CPU) : CPU :=
  let s1 := if s.dt > 0 then {s with dt := s.dt - 1} else s
  if s1.st > 0 then {s1 with st := s1.st - 1} else s1

/-- `TICKS_PER_FRAME` consecutive ticks. -/
def tickN : Nat → CPU → Except Fault CPU
  | 0, s => .ok s
  | n + 1, s => (tick s).bind (tickN n)

/-- `CPU::run_single_frame`: the per-frame ticks, then a render, then
one timer decrement. -/
def run_single_frame (s : CPU) : Except Fault CPU :=
  (tickN TICKS_PER_FRAME s).map fun s1 =>
    tick_timers {s1 with screen := s1.screen.render}

/-- `CPU::run_n_ticks` (which, despite its name, runs whole frames). -/
def runNFrames : Nat → CPU → Except Fault CPU
  | 0, s => .ok s
  | n + 1, s => (run_single_frame s).bind (runNFrames n)

/-- A concrete test fixture: a CPU with zeroed registers, RAM, stack,
keys and screen and the program counter at the load origin (the glyph
table contents are irrelevant to every property proved here). -/
def zeroCPU : CPU where
  v_reg := fun _ => 0
  ram := fun _ => 0
  pc := START_ADDR
  i_reg := 0
  dt := 0
  st := 0
  keys := fun _ => false
  stack := ⟨fun _ => 0, 0⟩
  screen := ⟨fun _ => false⟩
  rand := fun _ => 0
  randPos := 0

end After8

namespace After8

/-! ## Claim C2 — memory size -/

/-- A fixture for C2: the zero CPU about to fetch at 0xFD0 = 4048, an
address inside the 12-bit range 0x000–0xFFF. -/
def c2CPU : CPU := {zeroCPU with pc := 0xFD0}

/-- C2: the claim says memory has at least 4096 addressable bytes so
that every 12-bit address is in bounds.  The code declares
`RAM_SIZE = 4048`, and an instruction fetch at program counter
0xFD0 = 4048 — a valid 12-bit address — is an out-of-bounds RAM access
(a panic in the Rust source), refuting the claim. -/
theorem c2_ram_too_small :
    RAM_SIZE = 4048 ∧ (0xFD0 : Nat) < 4096 ∧
      tick c2CPU = .error .outOfBounds := by
  refine ⟨rfl, by decide, ?_⟩
  rfl

/-! ## Claim C4 — glyph address instruction -/

/-- A fixture for C4: register V0 holds 16, a value whose low nibble
is 0. -/
def c4CPU : CPU := {zeroCPU with v_reg := Function.update zeroCPU.v_reg 0 16}

/-- C4 counterexample: the claim says `oc_fx29` sets the index register
to 5 times the LOW NIBBLE of VX.  With VX = 16 the low nibble is 0, so
the claim predicts I = 0; the code leaves I = 16 * 5 = 80. -/
theorem c4_counterexample :
    (oc_fx29 c4CPU 0).i_reg = 80 ∧
      FONT_SPRITE_SIZE * (c4CPU.v_reg 0 % 16) = 0 := by
  constructor <;> rfl

/-- C4 amended: `oc_fx29` sets the index register to glyph size (5)
times the FULL byte in VX, with no low-nibble masking. -/
theorem c4_amended_fx29 (s : CPU) (x : Nat) (h : s.v_reg x < 256) :
    (oc_fx29 s x).i_reg = s.v_reg x * FONT_SPRITE_SIZE := by
  have : s.v_reg x * FONT_SPRITE_SIZE < 65536 := by
    unfold FONT_SPRITE_SIZE; omega
  simp [oc_fx29, Nat.mod_eq_of_lt this]

/-- C4 witness: the amended theorem evaluated at V0 = 16. -/
theorem c4_witness : (oc_fx29 c4CPU 0).i_reg = c4CPU.v_reg 0 * FONT_SPRITE_SIZE :=
  c4_amended_fx29 c4CPU 0 (by decide)

/-! ## Claim C5 — add with carry -/

/-- C5: for 8-bit register values a, b with X ≠ 15, `oc_8xy4` stores
(a+b) mod 256 in VX and sets VF to 1 iff a + b > 255, else 0. -/
theorem c5_add_with_carry (s : CPU) (x y a b : Nat)
    (hx : x ≠ 15)
    (hva : s.v_reg x = a) (hvb : s.v_reg y = b)
    (ha : a < 256) (hb : b < 256) :
    (oc_8xy4 s x y).v_reg x = (a + b) % 256 ∧
      (oc_8xy4 s x y).v_reg 15 = if 255 < a + b then 1 else 0 := by
  subst hva hvb
  constructor
  · simp [oc_8xy4, Function.update_noteq hx, Function.update_same]
  · simp [oc_8xy4, Function.update_same]

/-- C5 witness: 200 + 100 = 44 mod 256 with carry 1 (V0 := 200,
V1 := 100). -/
theorem c5_witness :
    let s := {zeroCPU with
      v_reg := Function.update (Function.update zeroCPU.v_reg 0 200) 1 100}
    (oc_8xy4 s 0 1).v_reg 0 = (200 + 100) % 256 ∧
      (oc_8xy4 s 0 1).v_reg 15 = if 255 < 200 + 100 then 1 else 0 :=
  c5_add_with_carry _ 0 1 200 100 (by decide) (by decide) (by decide)
    (by decide) (by decide)

/-! ## Claim C9 — flag write ordering when X = 15 -/

/-- C9: in `oc_8xy4`, `oc_8xy5`, `oc_8xy7`, `oc_8xy6` and `oc_8xye` the
flag write follows the result write, so with destination X = 15 the
flag register ends up holding the carry/borrow/shifted-out bit and the
computed result is discarded. -/
theorem c9_flag_overwrites_result (s : CPU) (y : Nat) :
    (oc_8xy4 s 15 y).v_reg 15 =
        (if 255 < s.v_reg 15 + s.v_reg y then 1 else 0) ∧
      (oc_8xy5 s 15 y).v_reg 15 =
        (if s.v_reg 15 < s.v_reg y then 0 else 1) ∧
      (oc_8xy7 s 15 y).v_reg 15 =
        (if s.v_reg y < s.v_reg 15 then 0 else 1) ∧
      (oc_8xy6 s 15 y).v_reg 15 = s.v_reg y &&& 1 ∧
      (oc_8xye s 15 y).v_reg 15 = (s.v_reg y >>> 7) &&& 1 := by
  refine ⟨?_, ?_, ?_, ?_, ?_⟩ <;>
    simp [oc_8xy4, oc_8xy5, oc_8xy7, oc_8xy6, oc_8xye, Function.update_same]

/-! ## Claim C10 — 0x0000 is a no-op tick -/

/-- C10: when the two fetched bytes are both zero (and the fetch itself
is in bounds), `tick` succeeds and the entire resulting state is the
input state with only the program counter advanced by 2: registers,
memory, index register, stack, timers, keys and framebuffer are all
unchanged. -/
theorem c10_noop_tick (s : CPU)
    (h0 : s.ram s.pc = 0) (h1 : s.ram (s.pc + 1) = 0)
    (hb : s.pc + 1 < RAM_SIZE) :
    tick s = .ok {s with pc := s.pc + 2} := by
  have hb0 : s.pc < RAM_SIZE := by omega
  simp [tick, readRam, hb0, hb, h0, h1, dispatch, decode, exec, oc_0000,
    Except.bind]

/-- C10 witness: a tick of the zeroed CPU (all-zero program) advances
the program counter from 0x200 to 0x202 and changes nothing else. -/
theorem c10_witness : tick zeroCPU = .ok {zeroCPU with pc := zeroCPU.pc + 2} :=
  c10_noop_tick zeroCPU rfl rfl (by decide)

end After8

namespace After8

/-! ## Claim C8 — timer decay -/

/-- A fixture for C8: the zero CPU (whose all-zero program is a stream
of no-op instructions, none of which writes a timer) with the delay
timer set to 5. -/
def c8CPU : CPU := {zeroCPU with dt := 5}

/-- C8: `tick_timers` (run exactly once per frame, after the frame's
instructions) decrements each timer by at most 1 and saturates at 0;
and on the fixture with delay timer 5 and a timer-silent program, the
delay timer after k frames (k up to 6) is 5 - k truncated at 0: 5
frames drive it to 0, it never drops below 0, and a 6th frame leaves
it at 0. -/
theorem c8_timer_decay :
    (∀ s : CPU, (tick_timers s).dt = s.dt - 1 ∧ (tick_timers s).st = s.st - 1)
      ∧ ∀ k, k ≤ 6 →
          (runNFrames k c8CPU).toOption.map CPU.dt = some (5 - k) := by
  constructor
  · intro s
    unfold tick_timers
    dsimp only
    constructor <;> (split_ifs <;> simp_all)
  · decide

/-- C8 witness: five frames of the fixture leave the delay timer at 0,
and a sixth frame keeps it there. -/
theorem c8_witness :
    (runNFrames 5 c8CPU).toOption.map CPU.dt = some 0 ∧
      (runNFrames 6 c8CPU).toOption.map CPU.dt = some 0 :=
  ⟨c8_timer_decay.2 5 (by decide), c8_timer_decay.2 6 (by decide)⟩

end After8

namespace After8

/-! ## Claim C6 — call-then-return round trip -/

/-- C6: from any state whose program counter points at a call
instruction `2NNN` (and address `NNN` holds a return instruction
`00EE`), with both fetches in bounds and the call stack below its
capacity of 16, executing one tick (the call) and then a second tick
(the return) succeeds and leaves the program counter at `p + 2` — the
instruction immediately after the call. -/
theorem c6_call_return_roundtrip (s : CPU) (p nnn : Nat)
    (hpc : s.pc = p)
    (hp : p + 1 < RAM_SIZE) (hn : nnn + 1 < RAM_SIZE)
    (hcall : decode (s.ram p) (s.ram (p + 1)) = some (.op2nnn nnn))
    (hret : decode (s.ram nnn) (s.ram (nnn + 1)) = some .op00ee)
    (hsp : s.stack.sp < STACK_SIZE) :
    ∃ s2, (tick s).bind tick = .ok s2 ∧ s2.pc = p + 2 := by
  have hp0 : p < RAM_SIZE := by omega
  have hn0 : nnn < RAM_SIZE := by omega
  simp only [tick, readRam, hpc, if_pos hp0, if_pos hp, Except.bind,
    dispatch, hcall, exec, oc_2nnn, Stack.push, if_pos hsp, Except.map,
    oc_00ee, Stack.pop, if_pos hn0, if_pos hn]
  simp [hret, exec, oc_00ee, Stack.pop, Except.bind, Except.map,
    Function.update_same]

end After8


namespace After8

/-- A fixture for C6: a call `2NNN` to 0x300 stored at 0x200, and a
return `00EE` stored at 0x300 (all other memory zero). -/
def c6CPU : CPU :=
  {zeroCPU with ram := fun a =>
    if a = 0x200 then 0x23
    else if a = 0x301 then 0xEE
    else 0}

/-- C6 witness: the round trip evaluated on the fixture — after the
call to 0x300 and the return, the program counter is 0x202. -/
theorem c6_witness :
    ∃ s2, (tick c6CPU).bind tick = .ok s2 ∧ s2.pc = 0x200 + 2 :=
  c6_call_return_roundtrip c6CPU 0x200 0x300 rfl (by decide) (by decide)
    (by decide) (by decide) (by decide)

end After8

namespace After8

/-! ## Claim C7 — register dump/load round trip -/

/-- Unfolding the dump loop: with `I + n` in RAM bounds, `dumpRegs`
succeeds, touches only RAM, and stores `V0..V(n-1)` at `I..I+n-1`. -/
theorem dumpRegs_ok (s : CPU) (n : Nat) (h : s.i_reg + n ≤ RAM_SIZE) :
    ∃ c, dumpRegs s n = .ok c ∧ c.i_reg = s.i_reg ∧ c.v_reg = s.v_reg ∧
      ∀ a, c.ram a =
        if s.i_reg ≤ a ∧ a < s.i_reg + n then s.v_reg (a - s.i_reg)
        else s.ram a := by
  have hRS : RAM_SIZE = 4048 := rfl
  induction n with
  | zero =>
      refine ⟨s, rfl, rfl, rfl, fun a => ?_⟩
      rw [if_neg]; omega
  | succ n ih =>
      obtain ⟨c, hc, hi, hv, hram⟩ := ih (by omega)
      have hlt : s.i_reg + n < RAM_SIZE := by omega
      have hmod : (c.i_reg + n) % 65536 = s.i_reg + n := by
        rw [hi]; exact Nat.mod_eq_of_lt (by omega)
      refine ⟨{c with ram := Function.update c.ram (s.i_reg + n) (c.v_reg n)},
        ?_, hi, hv, fun a => ?_⟩
      · unfold dumpRegs
        rw [hc]
        show writeRam c ((c.i_reg + n) % 65536) (c.v_reg n) = _
        unfold writeRam
        rw [hmod, if_pos hlt]
      · by_cases ha : a = s.i_reg + n
        · subst ha
          show Function.update c.ram (s.i_reg + n) (c.v_reg n) (s.i_reg + n) = _
          rw [Function.update_same, hv, if_pos (by omega)]
          congr 1
          omega
        · show Function.update c.ram (s.i_reg + n) (c.v_reg n) a = _
          rw [Function.update_noteq ha, hram]
          by_cases hw : s.i_reg ≤ a ∧ a < s.i_reg + n
          · rw [if_pos hw, if_pos (by omega)]
          · rw [if_neg hw, if_neg (by omega)]

/-- Unfolding the load loop: with `I + n` in RAM bounds, `loadRegs`
succeeds, touches only the register file, and fills `V0..V(n-1)` from
RAM at `I..I+n-1`. -/
theorem loadRegs_ok (s : CPU) (n : Nat) (h : s.i_reg + n ≤ RAM_SIZE) :
    ∃ c, loadRegs s n = .ok c ∧ c.i_reg = s.i_reg ∧ c.ram = s.ram ∧
      ∀ k, c.v_reg k = if k < n then s.ram (s.i_reg + k) else s.v_reg k := by
  have hRS : RAM_SIZE = 4048 := rfl
  induction n with
  | zero =>
      refine ⟨s, rfl, rfl, rfl, fun k => ?_⟩
      rw [if_neg]; omega
  | succ n ih =>
      obtain ⟨c, hc, hi, hram, hv⟩ := ih (by omega)
      have hlt : s.i_reg + n < RAM_SIZE := by omega
      have hmod : (c.i_reg + n) % 65536 = s.i_reg + n := by
        rw [hi]; exact Nat.mod_eq_of_lt (by omega)
      refine ⟨{c with v_reg := Function.update c.v_reg n (s.ram (s.i_reg + n))},
        ?_, hi, hram, fun k => ?_⟩
      · unfold loadRegs
        rw [hc]
        show Except.map _ (readRam c ((c.i_reg + n) % 65536)) = _
        unfold readRam
        rw [hmod, if_pos hlt, hram]
        rfl
      · by_cases hk : k = n
        · subst hk
          show Function.update c.v_reg k (s.ram (s.i_reg + k)) k = _
          rw [Function.update_same, if_pos (by omega)]
        · show Function.update c.v_reg n (s.ram (s.i_reg + n)) k = _
          rw [Function.update_noteq hk, hv]
          by_cases hl : k < n
          · rw [if_pos hl, if_pos (by omega)]
          · rw [if_neg hl, if_neg (by omega)]

/-- C7: for X up to 15 and index register I with `I + X` in RAM bounds,
`oc_fx55` (register dump) succeeds and leaves the index register at
`I + X + 1`; then, with the index register reset to I, `oc_fx65`
(register load) succeeds, reproduces the original register values
`V0..=VX`, and again leaves the index register at `I + X + 1`. -/
theorem c7_dump_load_roundtrip (s : CPU) (x I : Nat)
    (hx : x ≤ 15) (hI : s.i_reg = I) (hb : I + x < RAM_SIZE) :
    ∃ s1, oc_fx55 s x = .ok s1 ∧ s1.i_reg = I + x + 1 ∧
      ∃ s2, oc_fx65 {s1 with i_reg := I} x = .ok s2 ∧
        s2.i_reg = I + x + 1 ∧
        ∀ k, k ≤ x → s2.v_reg k = s.v_reg k := by
  subst hI
  have hRS : RAM_SIZE = 4048 := rfl
  obtain ⟨c, hc, hi, hv, hram⟩ := dumpRegs_ok s (x + 1) (by omega)
  have hx1 : (x + 1) % 256 = x + 1 := Nat.mod_eq_of_lt (by omega)
  have hmod : (c.i_reg + (x + 1) % 256) % 65536 = s.i_reg + x + 1 := by
    rw [hi, hx1]; exact Nat.mod_eq_of_lt (by omega)
  refine ⟨{c with i_reg := (c.i_reg + (x + 1) % 256) % 65536}, ?_, hmod, ?_⟩
  · unfold oc_fx55
    rw [hc]
    rfl
  · obtain ⟨d, hd, hdi, hdram, hdv⟩ :=
      loadRegs_ok {c with i_reg := s.i_reg} (x + 1)
        (show s.i_reg + (x + 1) ≤ RAM_SIZE by omega)
    have hmod2 : (d.i_reg + (x + 1) % 256) % 65536 = s.i_reg + x + 1 := by
      rw [show d.i_reg = s.i_reg from hdi, hx1]
      exact Nat.mod_eq_of_lt (by omega)
    refine ⟨{d with i_reg := (d.i_reg + (x + 1) % 256) % 65536}, ?_, hmod2,
      fun k hk => ?_⟩
    · unfold oc_fx65
      show Except.map _ (loadRegs {c with i_reg := s.i_reg} (x + 1)) = _
      rw [hd]
      rfl
    · show d.v_reg k = s.v_reg k
      have h1 := hdv k
      rw [if_pos (by omega)] at h1
      have h2 := hram (s.i_reg + k)
      rw [if_pos (by omega)] at h2
      rw [h1]
      show c.ram (s.i_reg + k) = s.v_reg k
      rw [h2]
      congr 1
      omega

end After8

namespace After8

/-- A fixture for C7: V0 = 7, V1 = 9, index register at 0x300. -/
def c7CPU : CPU :=
  {zeroCPU with
    v_reg := fun r => if r = 0 then 7 else if r = 1 then 9 else 0,
    i_reg := 0x300}

/-- C7 witness: the dump/load round trip evaluated on the fixture with
X = 1, I = 0x300. -/
theorem c7_witness :
    ∃ s1, oc_fx55 c7CPU 1 = .ok s1 ∧ s1.i_reg = 0x300 + 1 + 1 ∧
      ∃ s2, oc_fx65 {s1 with i_reg := 0x300} 1 = .ok s2 ∧
        s2.i_reg = 0x300 + 1 + 1 ∧
        ∀ k, k ≤ 1 → s2.v_reg k = c7CPU.v_reg k :=
  c7_dump_load_roundtrip c7CPU 1 0x300 (by decide) rfl (by decide)

end After8

namespace After8

/-! ## Claim C3 — undecodable instruction words are fatal -/

/-- The spec's §4.1 instruction table, transcribed as a nibble-pattern
predicate using the instruction encodings: the table's rows are clear
(00E0), return (00EE), jump (1NNN), call (2NNN), the skips (3XNN,
4XNN, 5XY0, 9XY0, EX9E, EXA1), load/add immediate (6XNN, 7XNN), the
register ALU group (8XY0–8XY7, 8XYE), set index (ANNN), jump with
offset (BNNN), random (CXNN), draw (DXYN), and the timer/memory group
(FX07, FX08, FX15, FX18, FX1E, FX29, FX33, FX55, FX65).  The table
does not list the word 0x0000. -/
def specTableDefined (b3 b2 b1 b0 : Nat) : Bool :=
  (b3 == 0 && b2 == 0 && b1 == 0xE && (b0 == 0xE || b0 == 0)) ||
  b3 == 1 || b3 == 2 || b3 == 3 || b3 == 4 ||
  (b3 == 5 && b0 == 0) ||
  b3 == 6 || b3 == 7 ||
  (b3 == 8 && (b0 == 0 || b0 == 1 || b0 == 2 || b0 == 3 || b0 == 4 ||
    b0 == 5 || b0 == 6 || b0 == 7 || b0 == 0xE)) ||
  (b3 == 9 && b0 == 0) ||
  b3 == 0xA || b3 == 0xB || b3 == 0xC || b3 == 0xD ||
  (b3 == 0xE && ((b1 == 9 && b0 == 0xE) || (b1 == 0xA && b0 == 1))) ||
  (b3 == 0xF && ((b1 == 0 && b0 == 7) || (b1 == 0 && b0 == 8) ||
    (b1 == 1 && b0 == 5) || (b1 == 1 && b0 == 8) || (b1 == 1 && b0 == 0xE) ||
    (b1 == 2 && b0 == 9) || (b1 == 3 && b0 == 3) || (b1 == 5 && b0 == 5) ||
    (b1 == 6 && b0 == 5)))

set_option maxRecDepth 2048 in
/-- For a byte, the source's high-nibble extraction agrees with
division by 16. -/
theorem nibHi : ∀ b, b < 256 → (b &&& 0xF0) >>> 4 = b / 16 := by decide

set_option maxRecDepth 2048 in
/-- For a byte, the source's low-nibble extraction agrees with the
remainder mod 16. -/
theorem nibLo : ∀ b, b < 256 → b &&& 0x0F = b % 16 := by decide

set_option maxRecDepth 2048 in
/-- Every instruction word whose nibble pattern is outside the spec's
table — except the word 0x0000 — falls into the `unreachable!`/`panic!`
arms of the source's dispatch match. -/
theorem decode_none_of_not_defined (hb lb : Nat) (hhb : hb < 256)
    (hlb : lb < 256)
    (hdef : specTableDefined (hb / 16) (hb % 16) (lb / 16) (lb % 16) = false)
    (hnz : ¬(hb = 0 ∧ lb = 0)) : decode hb lb = none := by
  unfold decode
  rw [nibHi hb hhb, nibLo hb hhb, nibHi lb hlb, nibLo lb hlb]
  obtain ⟨q, hq⟩ : ∃ q, hb / 16 = q := ⟨_, rfl⟩
  rw [hq] at hdef ⊢
  have hq16 : q < 16 := by omega
  interval_cases q <;> dsimp only <;>
    first
      | (simp [specTableDefined] at hdef; done)
      | (simp [specTableDefined] at hdef;
         split <;> first | rfl | omega)

/-- The keypress-wait pattern FX08 decodes to its own handler. -/
theorem decode_fx08 : ∀ x, x < 16 → decode (0xF0 + x) 0x08 = some (.opFx08 x) := by
  decide

/-- C3 (amended): every instruction word whose nibble pattern matches
no instruction of the spec's table, other than the no-op word 0x0000,
dispatches to the fatal unsupported-opcode error, from any state; the
recognized keypress-wait instruction FX08 instead dispatches to the
distinct not-implemented error. -/
theorem c3_amended_unknown_opcode_fatal :
    (∀ (s : CPU) (hb lb : Nat), hb < 256 → lb < 256 →
        specTableDefined (hb / 16) (hb % 16) (lb / 16) (lb % 16) = false →
        ¬(hb = 0 ∧ lb = 0) →
        dispatch s hb lb = .error .unsupportedOpcode) ∧
      (∀ (s : CPU) (x : Nat), x < 16 →
        dispatch s (0xF0 + x) 0x08 = .error .notImplemented) ∧
      Fault.notImplemented ≠ Fault.unsupportedOpcode := by
  refine ⟨?_, ?_, by decide⟩
  · intro s hb lb hhb hlb hdef hnz
    unfold dispatch
    rw [decode_none_of_not_defined hb lb hhb hlb hdef hnz]
  · intro s x hx
    unfold dispatch
    rw [decode_fx08 x hx]
    rfl

/-- C3 counterexample: the word 0x0000 matches no instruction of the
spec's table, yet its dispatch is not a fatal decode error — it is the
no-op, leaving the state unchanged. -/
theorem c3_counterexample :
    specTableDefined 0 0 0 0 = false ∧ dispatch zeroCPU 0 0 = .ok zeroCPU :=
  ⟨rfl, rfl⟩

/-- C3 witness: the undefined pattern 0x5001 is an unsupported-opcode
error, and FX08 is the distinct not-implemented error. -/
theorem c3_witness :
    dispatch zeroCPU 0x50 0x01 = .error .unsupportedOpcode ∧
      dispatch zeroCPU (0xF0 + 0) 0x08 = .error .notImplemented :=
  ⟨c3_amended_unknown_opcode_fatal.1 zeroCPU 0x50 0x01 (by decide) (by decide)
      (by decide) (by decide),
   c3_amended_unknown_opcode_fatal.2.1 zeroCPU 0 (by decide)⟩

end After8

namespace After8

/-! ## Claim C1 — sprite-draw collision flag

Analysis device: `Screen::draw_sprite` is, in effect, a sequence of
single-cell operations, one per on sprite bit — toggle the cell and
OR `!(old value)` into the collision accumulator.  `applyOps` performs
such a sequence over a list of cell indices; the lemmas below show the
draw loops equal `applyOps` over the list of targeted cells, and
characterise `applyOps` when the cells are pairwise distinct. -/

/-- Run the per-on-bit cell operation of `Screen::draw_sprite` over a
list of cell indices. -/
def applyOps (p : Nat → Bool) (ch : Bool) : List Nat → (Nat → Bool) × Bool
  | [] => (p, ch)
  | a :: rest => applyOps (Function.update p a (xor (p a) true)) (ch || !(p a)) rest

/-- The cells targeted by the on bits of one sprite byte drawn at row
`y`. -/
def rowOps (sprite_byte pos_x y : Nat) : List Nat :=
  ((List.range 8).filter fun bit =>
      (sprite_byte &&& (0b10000000 >>> bit)) != 0).map
    fun bit => (pos_x + bit) % SCREEN_WIDTH + y * SCREEN_WIDTH

/-- The cells targeted by all on bits of a sprite, row offset `i`
onward. -/
def spriteOps : List Nat → Nat → Nat → Nat → List Nat
  | [], _, _, _ => []
  | b :: rest, pos_x, pos_y, i =>
      rowOps b pos_x ((pos_y + i) % SCREEN_HEIGHT) ++
        spriteOps rest pos_x pos_y (i + 1)

theorem bne_true_eq_not (b : Bool) : (b != true) = !b := by cases b <;> rfl

theorem xor_true_eq_not (b : Bool) : xor b true = !b := by cases b <;> rfl

theorem any_congr_mem (l : List Nat) (f g : Nat → Bool)
    (h : ∀ a ∈ l, f a = g a) : l.any f = l.any g := by
  induction l with
  | nil => rfl
  | cons a l ih => simp_all

theorem applyOps_append (l1 l2 : List Nat) (p : Nat → Bool) (ch : Bool) :
    applyOps p ch (l1 ++ l2) =
      applyOps (applyOps p ch l1).1 (applyOps p ch l1).2 l2 := by
  induction l1 generalizing p ch with
  | nil => rfl
  | cons a l1 ih => exact ih (Function.update p a (xor (p a) true)) (ch || !(p a))

/-- With pairwise-distinct cells, `applyOps` reports whether some
targeted cell was off in the original grid, and toggles exactly the
targeted cells. -/
theorem applyOps_spec (l : List Nat) (hl : l.Pairwise (· ≠ ·))
    (p : Nat → Bool) (ch : Bool) :
    ((applyOps p ch l).2 = (ch || l.any fun a => !(p a))) ∧
      ∀ j, (applyOps p ch l).1 j = if j ∈ l then !(p j) else p j := by
  induction l generalizing p ch with
  | nil => exact ⟨by simp [applyOps], fun j => by simp [applyOps]⟩
  | cons a l ih =>
      have ha : ∀ b ∈ l, a ≠ b := fun b hb => List.rel_of_pairwise_cons hl hb
      have hl' : l.Pairwise (· ≠ ·) := hl.of_cons
      have hp' : ∀ b ∈ l,
          Function.update p a (xor (p a) true) b = p b := fun b hb =>
        Function.update_noteq (fun e => ha b hb e.symm) _ _
      obtain ⟨ihsnd, ihfst⟩ :=
        ih hl' (Function.update p a (xor (p a) true)) (ch || !(p a))
      constructor
      · show (applyOps _ _ l).2 = _
        rw [ihsnd, any_congr_mem l _ (fun b => !(p b)) fun b hb => by
          rw [hp' b hb]]
        simp [Bool.or_assoc]
      · intro j
        show (applyOps _ _ l).1 j = _
        rw [ihfst j]
        by_cases hj : j ∈ l
        · rw [if_pos hj, if_pos (List.mem_cons_of_mem a hj), hp' j hj]
        · rw [if_neg hj]
          by_cases hja : j = a
          · subst hja
            rw [Function.update_same, if_pos (List.mem_cons_self j l),
              xor_true_eq_not]
          · rw [Function.update_noteq hja, if_neg (by simp [hja, hj])]

/-- The inner bit loop of the draw equals `applyOps` over the on-bit
cells of the row. -/
theorem foldl_drawBit_eq (sprite_byte pos_x y : Nat) (bits : List Nat)
    (p : Nat → Bool) (ch : Bool) :
    bits.foldl (fun pc bit => drawBit pc.1 pc.2 sprite_byte pos_x y bit)
        (p, ch) =
      applyOps p ch ((bits.filter fun bit =>
          (sprite_byte &&& (0b10000000 >>> bit)) != 0).map
        fun bit => (pos_x + bit) % SCREEN_WIDTH + y * SCREEN_WIDTH) := by
  induction bits generalizing p ch with
  | nil => rfl
  | cons b bits ih =>
      rw [List.foldl_cons]
      by_cases hpx : ((sprite_byte &&& (0b10000000 >>> b)) != 0) = true
      · have hdb : drawBit p ch sprite_byte pos_x y b =
            (Function.update p ((pos_x + b) % SCREEN_WIDTH + y * SCREEN_WIDTH)
                (xor (p ((pos_x + b) % SCREEN_WIDTH + y * SCREEN_WIDTH)) true),
             ch || !(p ((pos_x + b) % SCREEN_WIDTH + y * SCREEN_WIDTH))) := by
          unfold drawBit
          rw [if_pos hpx]
          simp only [hpx, bne_true_eq_not]
        rw [hdb, ih]
        simp only [List.filter_cons, hpx, if_true, List.map_cons]
        rfl
      · have hpx' : ((sprite_byte &&& (0b10000000 >>> b)) != 0) = false := by
          simpa using hpx
        have hdb : drawBit p ch sprite_byte pos_x y b = (p, ch) := by
          unfold drawBit
          rw [if_neg hpx]
        rw [hdb, ih]
        simp [List.filter_cons, hpx']

/-- The inner loop (`drawRow`) equals `applyOps` over the row's on-bit
cells. -/
theorem drawRow_eq (sprite_byte pos_x y : Nat) (p : Nat → Bool) (ch : Bool) :
    drawRow p ch sprite_byte pos_x y =
      applyOps p ch (rowOps sprite_byte pos_x y) :=
  foldl_drawBit_eq sprite_byte pos_x y (List.range 8) p ch

/-- The draw loops equal `applyOps` over all targeted cells. -/
theorem drawRows_eq_applyOps (sprite : List Nat) (p : Nat → Bool) (ch : Bool)
    (pos_x pos_y i : Nat) :
    drawRows p ch sprite pos_x pos_y i =
      applyOps p ch (spriteOps sprite pos_x pos_y i) := by
  induction sprite generalizing p ch i with
  | nil => rfl
  | cons b rest ih =>
      rw [show drawRows p ch (b :: rest) pos_x pos_y i =
          drawRows (drawRow p ch b pos_x ((pos_y + i) % SCREEN_HEIGHT)).1
            (drawRow p ch b pos_x ((pos_y + i) % SCREEN_HEIGHT)).2
            rest pos_x pos_y (i + 1) from rfl]
      rw [drawRow_eq, ih, ← applyOps_append]
      rfl

end After8

namespace After8

/-- Membership in a row's target-cell list. -/
theorem mem_rowOps (a sprite_byte pos_x y : Nat) :
    a ∈ rowOps sprite_byte pos_x y ↔
      ∃ bit, bit < 8 ∧ ((sprite_byte &&& (0b10000000 >>> bit)) != 0) = true ∧
        a = (pos_x + bit) % SCREEN_WIDTH + y * SCREEN_WIDTH := by
  constructor
  · intro h
    simp only [rowOps, List.mem_map, List.mem_filter, List.mem_range] at h
    obtain ⟨bit, ⟨hb8, hpred⟩, heq⟩ := h
    exact ⟨bit, hb8, hpred, heq.symm⟩
  · rintro ⟨bit, hb8, hpred, heq⟩
    simp only [rowOps, List.mem_map, List.mem_filter, List.mem_range]
    exact ⟨bit, ⟨hb8, hpred⟩, heq.symm⟩

/-- Membership in a sprite's target-cell list. -/
theorem mem_spriteOps (a : Nat) (sprite : List Nat) (pos_x pos_y i : Nat) :
    a ∈ spriteOps sprite pos_x pos_y i ↔
      ∃ k, ∃ hk : k < sprite.length, ∃ bit, bit < 8 ∧
        ((sprite.get ⟨k, hk⟩ &&& (0b10000000 >>> bit)) != 0) = true ∧
        a = (pos_x + bit) % SCREEN_WIDTH +
          ((pos_y + (i + k)) % SCREEN_HEIGHT) * SCREEN_WIDTH := by
  induction sprite generalizing i with
  | nil => simp [spriteOps]
  | cons b rest ih =>
      show a ∈ rowOps b pos_x ((pos_y + i) % SCREEN_HEIGHT) ++
          spriteOps rest pos_x pos_y (i + 1) ↔ _
      rw [List.mem_append, mem_rowOps, ih]
      constructor
      · rintro (⟨bit, hb8, hpred, heq⟩ | ⟨k, hk, bit, hb8, hpred, heq⟩)
        · exact ⟨0, Nat.succ_pos _, bit, hb8, hpred, by
            rw [heq, Nat.add_zero]⟩
        · refine ⟨k + 1, by simpa using Nat.succ_lt_succ hk, bit, hb8, hpred, ?_⟩
          rw [heq]
          show (pos_x + bit) % 64 + ((pos_y + (i + 1 + k)) % 32) * 64 =
            (pos_x + bit) % 64 + ((pos_y + (i + (k + 1))) % 32) * 64
          omega
      · rintro ⟨k, hk, bit, hb8, hpred, heq⟩
        match k with
        | 0 =>
            left
            exact ⟨bit, hb8, hpred, by rw [heq, Nat.add_zero]⟩
        | k + 1 =>
            right
            refine ⟨k, by simpa using hk, bit, hb8, hpred, ?_⟩
            rw [heq]
            show (pos_x + bit) % 64 + ((pos_y + (i + (k + 1))) % 32) * 64 =
              (pos_x + bit) % 64 + ((pos_y + (i + 1 + k)) % 32) * 64
            omega

/-- The eight cells of one row are pairwise distinct. -/
theorem pairwise_rowOps (sprite_byte pos_x y : Nat) :
    (rowOps sprite_byte pos_x y).Pairwise (· ≠ ·) := by
  unfold rowOps
  rw [List.pairwise_map]
  have base : (List.range 8).Pairwise (· < ·) := List.pairwise_lt_range 8
  have hf : ((List.range 8).filter fun bit =>
      (sprite_byte &&& (0b10000000 >>> bit)) != 0).Pairwise (· < ·) :=
    base.sublist (List.filter_sublist _) |>.imp id
  refine hf.imp_of_mem ?_
  intro u v hu hv huv
  have hu8 : u < 8 := by
    have := List.mem_range.mp (List.mem_of_mem_filter hu)
    omega
  have hv8 : v < 8 := by
    have := List.mem_range.mp (List.mem_of_mem_filter hv)
    omega
  show (pos_x + u) % 64 + y * 64 ≠ (pos_x + v) % 64 + y * 64
  omega

/-- For a sprite of at most 32 rows, all targeted cells are pairwise
distinct. -/
theorem pairwise_spriteOps (sprite : List Nat) (pos_x pos_y i : Nat)
    (h : sprite.length ≤ 32) :
    (spriteOps sprite pos_x pos_y i).Pairwise (· ≠ ·) := by
  induction sprite generalizing i with
  | nil => exact List.Pairwise.nil
  | cons b rest ih =>
      have hlen : rest.length ≤ 31 := by simpa using h
      show (rowOps b pos_x ((pos_y + i) % SCREEN_HEIGHT) ++
          spriteOps rest pos_x pos_y (i + 1)).Pairwise (· ≠ ·)
      rw [List.pairwise_append]
      refine ⟨pairwise_rowOps _ _ _, ih (i + 1) (by omega), ?_⟩
      intro a ha c hc
      rw [mem_rowOps] at ha
      rw [mem_spriteOps] at hc
      obtain ⟨bit, hb8, _, ha⟩ := ha
      obtain ⟨k, hk, bit', hb8', _, hc⟩ := hc
      rw [ha, hc]
      show (pos_x + bit) % 64 + ((pos_y + i) % 32) * 64 ≠
        (pos_x + bit') % 64 + ((pos_y + (i + 1 + k)) % 32) * 64
  
      omega

end After8

namespace After8

/-- C1 (amended): for every draw of a sprite with at most 32 rows (the
instruction's sprites in fact have at most 15), the collision flag
returned by `Screen::draw_sprite` is true iff at least one framebuffer
cell touched by an on sprite bit was OFF before the draw (i.e. toggled
off→on) — not iff some touched cell toggled, which is every touched
cell. -/
theorem c1_amended_draw_collision (scr : Screen) (sprite : List Nat)
    (pos_x pos_y : Nat) (h : sprite.length ≤ 32) :
    (scr.draw_sprite sprite pos_x pos_y).2 = true ↔
      ∃ k, ∃ hk : k < sprite.length, ∃ bit, bit < 8 ∧
        (sprite.get ⟨k, hk⟩ &&& (0b10000000 >>> bit)) ≠ 0 ∧
        scr.pixel ((pos_x + bit) % SCREEN_WIDTH +
          ((pos_y + k) % SCREEN_HEIGHT) * SCREEN_WIDTH) = false := by
  have hpair := pairwise_spriteOps sprite pos_x pos_y 0 h
  have hspec := applyOps_spec (spriteOps sprite pos_x pos_y 0) hpair
    scr.pixel false
  show (drawRows scr.pixel false sprite pos_x pos_y 0).2 = true ↔ _
  rw [drawRows_eq_applyOps, hspec.1]
  simp only [Bool.false_or, List.any_eq_true]
  constructor
  · rintro ⟨a, hmem, hpa⟩
    rw [mem_spriteOps] at hmem
    obtain ⟨k, hk, bit, hb8, hpred, rfl⟩ := hmem
    refine ⟨k, hk, bit, hb8, by simpa using hpred, ?_⟩
    have : (pos_y + (0 + k)) = (pos_y + k) := by omega
    rw [this] at hpa
    simpa using hpa
  · rintro ⟨k, hk, bit, hb8, hpred, hpix⟩
    refine ⟨(pos_x + bit) % SCREEN_WIDTH +
      ((pos_y + (0 + k)) % SCREEN_HEIGHT) * SCREEN_WIDTH, ?_, ?_⟩
    · rw [mem_spriteOps]
      exact ⟨k, hk, bit, hb8, by simpa using hpred, rfl⟩
    · have : (pos_y + (0 + k)) = (pos_y + k) := by omega
      rw [this]
      simpa using hpix

/-- A fixture for C1's drawing scenario at the CPU level: one sprite
byte 0xFF at address 0 (the index register's value), V0 = 60 (the x
position) and V1 = 0 (the y position). -/
def c1CPU : CPU :=
  {zeroCPU with
    ram := fun a => if a = 0 then 0xFF else 0,
    v_reg := fun r => if r = 0 then 60 else 0}

/-- C1 counterexample: drawing the 1-byte sprite 0xFF at x=60, y=0 on a
clear screen sets the eight wrapped pixels of row 0 and reports a
collision; drawing it a second time at the same position turns all
eight pixels back off but reports NO collision — the claim predicted a
collision on both draws.  The same holds through the draw instruction
`oc_dxyn`: the flag register VF is 1 after the first draw and 0 after
the second. -/
theorem c1_counterexample :
    (Screen.draw_sprite ⟨fun _ => false⟩ [0xFF] 60 0).2 = true ∧
      ((Screen.draw_sprite ⟨fun _ => false⟩ [0xFF] 60 0).1.draw_sprite
        [0xFF] 60 0).2 = false ∧
      (∀ c ∈ [60, 61, 62, 63, 0, 1, 2, 3],
        (Screen.draw_sprite ⟨fun _ => false⟩ [0xFF] 60 0).1.pixel c = true ∧
        ((Screen.draw_sprite ⟨fun _ => false⟩ [0xFF] 60 0).1.draw_sprite
          [0xFF] 60 0).1.pixel c = false) ∧
      ((oc_dxyn c1CPU 0 1 1).toOption.map fun c => c.v_reg 15) = some 1 ∧
      (((oc_dxyn c1CPU 0 1 1).toOption.bind fun c =>
        (oc_dxyn c 0 1 1).toOption).map fun c => c.v_reg 15) = some 0 := by
  refine ⟨by decide, by decide, by decide, by decide, by decide⟩

/-- C1 witness: the amended characterisation applied to the first draw
of the scenario — the flag is true because bit 0 of the sprite byte is
on and its target cell, column 60 of row 0, was off. -/
theorem c1_witness :
    (Screen.draw_sprite ⟨fun _ => false⟩ [0xFF] 60 0).2 = true :=
  (c1_amended_draw_collision ⟨fun _ => false⟩ [0xFF] 60 0 (by decide)).mpr
    ⟨0, by decide, 0, by decide, by decide, rfl⟩

end After8
